import Mathlib

/-!
Verification of the byte-cursor / speculation-safe advance core and the
GNU-intrinsics atomics backend of the aws-c-common subset.

`size_t` is modelled as `Nat` with arithmetic reduced modulo `2 ^ SIZE_BITS`
exactly where the C unsigned arithmetic can wrap; pointers are modelled as
`Nat` addresses with the null pointer at address `0`.  In-place mutation of a
`struct aws_byte_cursor *` is modelled by returning the final cursor state
alongside the function's return value.
-/

namespace Aws

/-- Word width of `size_t` on the modelled 64-bit platform. -/
def SIZE_BITS : Nat := 64

/-- `SIZE_MAX`, the largest value representable in `size_t`. -/
def SIZE_MAX : Nat := 2 ^ SIZE_BITS - 1

/-- `struct aws_byte_buf`: a length-delimited binary string or buffer
(`uint8_t *buffer; size_t len;`), the pointer modelled as an address. -/
structure aws_byte_buf where
  buffer : Nat
  len : Nat
deriving DecidableEq

/-- `struct aws_byte_cursor`: a movable pointer within a larger binary
string or buffer (`uint8_t *ptr; size_t len;`). -/
structure aws_byte_cursor where
  ptr : Nat
  len : Nat
deriving DecidableEq

/-- `aws_byte_cursor_from_buf`: initializes a cursor referencing the
entirety of the buffer. -/
def aws_byte_cursor_from_buf (buf : aws_byte_buf) : aws_byte_cursor :=
  ⟨buf.buffer, buf.len⟩

/-- `aws_nospec_index` from the source: computes, without data-dependent
branches, a mask that is all-ones when `index < bound` with both below half
the `size_t` range, and all-zeros otherwise, then ANDs it into `index`.
The C expression `bound - index - (uintptr_t)1` wraps modulo `2 ^ SIZE_BITS`,
modelled by adding `2 ^ SIZE_BITS` before the truncated subtraction; the C
complement `~combined_mask` of a value below `2 ^ SIZE_BITS` is
`SIZE_MAX - combined_mask`; the final multiplication wraps modulo
`2 ^ SIZE_BITS`.  (The inline-assembly optimizer barrier has no effect on the
computed value and is not part of the value-level model.) -/
def aws_nospec_index (index bound : Nat) : Nat :=
  let negative_mask := index ||| bound
  let toobig_mask := (2 ^ SIZE_BITS + bound - index - 1) % 2 ^ SIZE_BITS
  let combined_mask := negative_mask ||| toobig_mask
  let combined_mask2 := (SIZE_MAX - combined_mask) / (SIZE_MAX - SIZE_MAX >>> 1)
  let combined_mask3 := combined_mask2 * SIZE_MAX % 2 ^ SIZE_BITS
  index &&& combined_mask3

/-- `aws_byte_cursor_advance`: returns `(rv, final cursor state)` where `rv`
is the C return value and the final state models the in-place mutation of
`*cursor`. -/
def aws_byte_cursor_advance (cursor : aws_byte_cursor) (len : Nat) :
    aws_byte_cursor × aws_byte_cursor :=
  if cursor.len > SIZE_MAX >>> 1 ∨ len > SIZE_MAX >>> 1 ∨ len > cursor.len then
    (⟨0, 0⟩, cursor)
  else
    (⟨cursor.ptr, len⟩, ⟨cursor.ptr + len, cursor.len - len⟩)

/-- `aws_byte_cursor_advance_nospec`: returns `(rv, final cursor state)`.
On the accepted branch the length is passed through `aws_nospec_index`
bounded by `cursor.len + 1` before being used. -/
def aws_byte_cursor_advance_nospec (cursor : aws_byte_cursor) (len : Nat) :
    aws_byte_cursor × aws_byte_cursor :=
  if len ≤ cursor.len ∧ len ≤ SIZE_MAX >>> 1 ∧ cursor.len ≤ SIZE_MAX >>> 1 then
    let len2 := aws_nospec_index len (cursor.len + 1)
    (⟨cursor.ptr, len2⟩, ⟨cursor.ptr + len2, cursor.len - len2⟩)
  else
    (⟨0, 0⟩, cursor)

/-- One cursor-advancement call of either flavour, with its requested
length. -/
inductive AdvanceOp where
  | plain (len : Nat)
  | nospec (len : Nat)

/-- Apply one advancement call: `(return value, final cursor state)`. -/
def applyAdvance (c : aws_byte_cursor) : AdvanceOp → aws_byte_cursor × aws_byte_cursor
  | AdvanceOp.plain len => aws_byte_cursor_advance c len
  | AdvanceOp.nospec len => aws_byte_cursor_advance_nospec c len

/-- Run a sequence of advancement calls, threading the cursor state. -/
def runCursor (c : aws_byte_cursor) (ops : List AdvanceOp) : aws_byte_cursor :=
  ops.foldl (fun s op => (applyAdvance s op).2) c

/-! ### Atomics backend (`atomics_gnu.inl`)

The atomic cell `struct aws_atomic_var` is a single machine-word union slot;
its contents (integer `intval` or pointer `ptrval`, the latter an address)
are modelled as a `Nat` word.  Each operation is modelled as a pure state
transformer on the cell value; the `abort()` reached through
`aws_atomic_priv_xlate_order` on an unmapped ordering is modelled by
`Option`, with `none` standing for the aborted (non-returning) execution. -/

/-- Modelled from the spec: the closed five-value `enum aws_memory_order`
from `include/aws/common/atomics.h`, which is not under `src/`; the numeric
values follow the C11-style enumeration the header mirrors
(`relaxed = 0`, then `acquire = 2` through `seq_cst = 5`, with `consume = 1`
unused).  A C enum may carry values outside the enumeration, so the type is
the underlying integer. -/
def aws_memory_order_relaxed : Int := 0

/-- Modelled from the spec: see `aws_memory_order_relaxed`. -/
def aws_memory_order_acquire : Int := 2

/-- Modelled from the spec: see `aws_memory_order_relaxed`. -/
def aws_memory_order_release : Int := 3

/-- Modelled from the spec: see `aws_memory_order_relaxed`. -/
def aws_memory_order_acq_rel : Int := 4

/-- Modelled from the spec: see `aws_memory_order_relaxed`. -/
def aws_memory_order_seq_cst : Int := 5

/-- The compiler-provided intrinsic ordering token `__ATOMIC_RELAXED`
(GNU documented value `0`). -/
def ATOMIC_RELAXED : Int := 0

/-- The intrinsic ordering token `__ATOMIC_ACQUIRE` (GNU value `2`). -/
def ATOMIC_ACQUIRE : Int := 2

/-- The intrinsic ordering token `__ATOMIC_RELEASE` (GNU value `3`). -/
def ATOMIC_RELEASE : Int := 3

/-- The intrinsic ordering token `__ATOMIC_ACQ_REL` (GNU value `4`). -/
def ATOMIC_ACQ_REL : Int := 4

/-- The intrinsic ordering token `__ATOMIC_SEQ_CST` (GNU value `5`). -/
def ATOMIC_SEQ_CST : Int := 5

/-- The argument is one of the five values of the memory-ordering
enumeration. -/
def ValidOrder (o : Int) : Prop :=
  o = aws_memory_order_relaxed ∨ o = aws_memory_order_acquire ∨
    o = aws_memory_order_release ∨ o = aws_memory_order_acq_rel ∨
    o = aws_memory_order_seq_cst

instance (o : Int) : Decidable (ValidOrder o) := by
  unfold ValidOrder
  infer_instance

/-- `aws_atomic_priv_xlate_order`: the switch over the ordering enumeration;
the `default: abort()` arm is `none`. -/
def aws_atomic_priv_xlate_order (order : Int) : Option Int :=
  if order = aws_memory_order_relaxed then some ATOMIC_RELAXED
  else if order = aws_memory_order_acquire then some ATOMIC_ACQUIRE
  else if order = aws_memory_order_release then some ATOMIC_RELEASE
  else if order = aws_memory_order_acq_rel then some ATOMIC_ACQ_REL
  else if order = aws_memory_order_seq_cst then some ATOMIC_SEQ_CST
  else none

/-- Sequential (single-thread) semantics of the GNU builtin
`__atomic_load_n`: returns the cell's current value.  The ordering token
only constrains inter-thread visibility, which has no effect on the
sequential value semantics. -/
def gnu_atomic_load_n (cell : Nat) (_order : Int) : Nat := cell

/-- Sequential semantics of `__atomic_store_n`: the new cell value. -/
def gnu_atomic_store_n (_cell val : Nat) (_order : Int) : Nat := val

/-- Sequential semantics of `__atomic_exchange_n`:
`(returned previous value, new cell value)`. -/
def gnu_atomic_exchange_n (cell val : Nat) (_order : Int) : Nat × Nat :=
  (cell, val)

/-- Sequential semantics of `__atomic_compare_exchange_n` (strong form,
`weak = false`): `(returned bool, new cell value, new expected value)`. -/
def gnu_atomic_compare_exchange_n (cell expected desired : Nat)
    (_weak : Bool) (_order_success _order_failure : Int) :
    Bool × Nat × Nat :=
  if expected = cell then (true, desired, expected) else (false, cell, cell)

/-- Sequential semantics of `__atomic_fetch_add` on a `size_t` cell:
`(returned previous value, new cell value)`, wrapping modulo the word. -/
def gnu_atomic_fetch_add (cell n : Nat) (_order : Int) : Nat × Nat :=
  (cell, (cell + n) % 2 ^ SIZE_BITS)

/-- Sequential semantics of `__atomic_fetch_sub`, wrapping modulo the
word. -/
def gnu_atomic_fetch_sub (cell n : Nat) (_order : Int) : Nat × Nat :=
  (cell, (2 ^ SIZE_BITS + cell - n % 2 ^ SIZE_BITS) % 2 ^ SIZE_BITS)

/-- Sequential semantics of `__atomic_fetch_or`. -/
def gnu_atomic_fetch_or (cell n : Nat) (_order : Int) : Nat × Nat :=
  (cell, (cell ||| n) % 2 ^ SIZE_BITS)

/-- Sequential semantics of `__atomic_fetch_and`. -/
def gnu_atomic_fetch_and (cell n : Nat) (_order : Int) : Nat × Nat :=
  (cell, (cell &&& n) % 2 ^ SIZE_BITS)

/-- Sequential semantics of `__atomic_fetch_xor`. -/
def gnu_atomic_fetch_xor (cell n : Nat) (_order : Int) : Nat × Nat :=
  (cell, (cell ^^^ n) % 2 ^ SIZE_BITS)

/-- `aws_atomic_init_int`: `var->intval = n`; returns the new cell value. -/
def aws_atomic_init_int (n : Nat) : Nat := n

/-- `aws_atomic_init_ptr`: `var->ptrval = p`; returns the new cell value. -/
def aws_atomic_init_ptr (p : Nat) : Nat := p

/-- `aws_atomic_load_int_explicit`: translates the ordering (aborting on an
unmapped value) and performs the builtin load. -/
def aws_atomic_load_int_explicit (var : Nat) (memory_order : Int) :
    Option Nat :=
  (aws_atomic_priv_xlate_order memory_order).map fun o =>
    gnu_atomic_load_n var o

/-- `aws_atomic_load_ptr_explicit`. -/
def aws_atomic_load_ptr_explicit (var : Nat) (memory_order : Int) :
    Option Nat :=
  (aws_atomic_priv_xlate_order memory_order).map fun o =>
    gnu_atomic_load_n var o

/-- `aws_atomic_store_int_explicit`: returns the new cell value. -/
def aws_atomic_store_int_explicit (var n : Nat) (memory_order : Int) :
    Option Nat :=
  (aws_atomic_priv_xlate_order memory_order).map fun o =>
    gnu_atomic_store_n var n o

/-- `aws_atomic_store_ptr_explicit`: returns the new cell value. -/
def aws_atomic_store_ptr_explicit (var p : Nat) (memory_order : Int) :
    Option Nat :=
  (aws_atomic_priv_xlate_order memory_order).map fun o =>
    gnu_atomic_store_n var p o

/-- `aws_atomic_exchange_int_explicit`:
`(returned previous value, new cell value)`. -/
def aws_atomic_exchange_int_explicit (var n : Nat) (memory_order : Int) :
    Option (Nat × Nat) :=
  (aws_atomic_priv_xlate_order memory_order).map fun o =>
    gnu_atomic_exchange_n var n o

/-- `aws_atomic_exchange_ptr_explicit`. -/
def aws_atomic_exchange_ptr_explicit (var p : Nat) (memory_order : Int) :
    Option (Nat × Nat) :=
  (aws_atomic_priv_xlate_order memory_order).map fun o =>
    gnu_atomic_exchange_n var p o

/-- `aws_atomic_compare_exchange_int_explicit`: both orderings are
translated (either unmapped one aborts), then the strong builtin CAS runs;
result is `(returned bool, new cell value, new expected value)`. -/
def aws_atomic_compare_exchange_int_explicit (var expected desired : Nat)
    (order_success order_failure : Int) : Option (Bool × Nat × Nat) :=
  match aws_atomic_priv_xlate_order order_success,
      aws_atomic_priv_xlate_order order_failure with
  | some o1, some o2 =>
    some (gnu_atomic_compare_exchange_n var expected desired false o1 o2)
  | _, _ => none

/-- `aws_atomic_compare_exchange_ptr_explicit`. -/
def aws_atomic_compare_exchange_ptr_explicit (var expected desired : Nat)
    (order_success order_failure : Int) : Option (Bool × Nat × Nat) :=
  match aws_atomic_priv_xlate_order order_success,
      aws_atomic_priv_xlate_order order_failure with
  | some o1, some o2 =>
    some (gnu_atomic_compare_exchange_n var expected desired false o1 o2)
  | _, _ => none

/-- `aws_atomic_fetch_add_explicit`:
`(returned previous value, new cell value)`. -/
def aws_atomic_fetch_add_explicit (var n : Nat) (order : Int) :
    Option (Nat × Nat) :=
  (aws_atomic_priv_xlate_order order).map fun o =>
    gnu_atomic_fetch_add var n o

/-- `aws_atomic_fetch_sub_explicit`. -/
def aws_atomic_fetch_sub_explicit (var n : Nat) (order : Int) :
    Option (Nat × Nat) :=
  (aws_atomic_priv_xlate_order order).map fun o =>
    gnu_atomic_fetch_sub var n o

/-- `aws_atomic_fetch_or_explicit`. -/
def aws_atomic_fetch_or_explicit (var n : Nat) (order : Int) :
    Option (Nat × Nat) :=
  (aws_atomic_priv_xlate_order order).map fun o =>
    gnu_atomic_fetch_or var n o

/-- `aws_atomic_fetch_and_explicit`. -/
def aws_atomic_fetch_and_explicit (var n : Nat) (order : Int) :
    Option (Nat × Nat) :=
  (aws_atomic_priv_xlate_order order).map fun o =>
    gnu_atomic_fetch_and var n o

/-- `aws_atomic_fetch_xor_explicit`. -/
def aws_atomic_fetch_xor_explicit (var n : Nat) (order : Int) :
    Option (Nat × Nat) :=
  (aws_atomic_priv_xlate_order order).map fun o =>
    gnu_atomic_fetch_xor var n o

/-- On a valid ordering, the order translation yields its token. -/
lemma xlate_isSome {o : Int} (h : ValidOrder o) :
    ∃ t, aws_atomic_priv_xlate_order o = some t := by
  rcases h with h | h | h | h | h <;> subst h <;> exact ⟨_, rfl⟩

/-! ### Helper lemmas -/

/-- Numeral form of the word modulus. -/
lemma size_pow_eq : (2 : Nat) ^ SIZE_BITS = 18446744073709551616 := by decide

/-- Numeral form of `SIZE_MAX`. -/
lemma size_max_eq : SIZE_MAX = 18446744073709551615 := by decide

/-- Numeral form of `SIZE_MAX >> 1`, the half-range guard used by the
cursor functions. -/
lemma size_half_eq : SIZE_MAX >>> 1 = 9223372036854775807 := by decide

/-- For a value below the word modulus, the top bit is set exactly when the
value is at least `2 ^ 63`. -/
lemma testBit_63_iff {c : Nat} (h : c < 2 ^ SIZE_BITS) :
    c.testBit 63 = true ↔ 2 ^ 63 ≤ c := by
  rw [Nat.testBit_to_div_mod, decide_eq_true_eq]
  rw [size_pow_eq] at h
  omega

/-- The top bit of a bitwise OR of two words is the OR of their top bits. -/
lemma or_top_iff {a b : Nat} (ha : a < 2 ^ SIZE_BITS) (hb : b < 2 ^ SIZE_BITS) :
    2 ^ 63 ≤ a ||| b ↔ 2 ^ 63 ≤ a ∨ 2 ^ 63 ≤ b := by
  have hab : a ||| b < 2 ^ SIZE_BITS := Nat.or_lt_two_pow ha hb
  rw [← testBit_63_iff hab, ← testBit_63_iff ha, ← testBit_63_iff hb,
    Nat.testBit_or, Bool.or_eq_true]

/-- Closed-form characterization of `aws_nospec_index` on `size_t` inputs:
it returns `index` when `index < bound` and `bound` is below `2 ^ 63`
(equivalently, `bound ≤ SIZE_MAX / 2`), and `0` otherwise. -/
lemma aws_nospec_index_eq (i b : Nat) (hi : i < 2 ^ SIZE_BITS)
    (hb : b < 2 ^ SIZE_BITS) :
    aws_nospec_index i b = if i < b ∧ b < 2 ^ 63 then i else 0 := by
  simp only [aws_nospec_index]
  set t := (2 ^ SIZE_BITS + b - i - 1) % 2 ^ SIZE_BITS with ht
  have htM : t < 2 ^ SIZE_BITS := Nat.mod_lt _ (by decide)
  have hnm : i ||| b < 2 ^ SIZE_BITS := Nat.or_lt_two_pow hi hb
  set cm := (i ||| b) ||| t with hcm
  have hcmM : cm < 2 ^ SIZE_BITS := Nat.or_lt_two_pow hnm htM
  have htop : 2 ^ 63 ≤ cm ↔ 2 ^ 63 ≤ i ∨ 2 ^ 63 ≤ b ∨ 2 ^ 63 ≤ t := by
    rw [hcm, or_top_iff hnm htM, or_top_iff hi hb, or_assoc]
  have h63 : (2 : Nat) ^ 63 = 9223372036854775808 := by decide
  rw [size_pow_eq] at ht hi hb hcmM
  rw [h63] at htop
  by_cases hin : i < b ∧ b < 2 ^ 63
  · obtain ⟨hib, hbH⟩ := hin
    rw [h63] at hbH
    have hdiv : (SIZE_MAX - cm) / (SIZE_MAX - SIZE_MAX >>> 1) = 1 := by
      rw [size_half_eq, size_max_eq]
      omega
    rw [hdiv, if_pos ⟨hib, by rw [h63]; exact hbH⟩]
    have hmask : 1 * SIZE_MAX % 2 ^ SIZE_BITS = 2 ^ SIZE_BITS - 1 := by decide
    rw [hmask]
    exact Nat.and_pow_two_sub_one_of_lt_two_pow (by rw [size_pow_eq]; exact hi)
  · rw [h63] at hin
    have hdiv : (SIZE_MAX - cm) / (SIZE_MAX - SIZE_MAX >>> 1) = 0 := by
      rw [size_half_eq, size_max_eq]
      omega
    rw [hdiv, if_neg (by rw [h63]; exact hin)]
    have hmask : 0 * SIZE_MAX % 2 ^ SIZE_BITS = 0 := by decide
    rw [hmask]
    exact Nat.and_zero i

/-- The clamped length computed inside the accepted branch of
`aws_byte_cursor_advance_nospec` never exceeds the requested length. -/
lemma nospec_le_len {len R : Nat} (hlen : len ≤ SIZE_MAX >>> 1)
    (hR : R ≤ SIZE_MAX >>> 1) : aws_nospec_index len (R + 1) ≤ len := by
  rw [size_half_eq] at hlen hR
  rw [aws_nospec_index_eq len (R + 1) (by rw [size_pow_eq]; omega)
    (by rw [size_pow_eq]; omega)]
  split
  · exact Nat.le_refl len
  · exact Nat.zero_le len

/-- Every single advancement call, of either flavour, moves the pointer
forward by exactly the returned length and decreases the remaining length
by the same amount, and the returned length never exceeds the remaining
length.  (A failing call returns length `0` and leaves the state
unchanged, which is the degenerate instance of the same equations.) -/
lemma applyAdvance_step (c : aws_byte_cursor) (op : AdvanceOp) :
    (applyAdvance c op).1.len ≤ c.len ∧
    (applyAdvance c op).2.ptr = c.ptr + (applyAdvance c op).1.len ∧
    (applyAdvance c op).2.len = c.len - (applyAdvance c op).1.len := by
  cases op with
  | plain len =>
    simp only [applyAdvance, aws_byte_cursor_advance]
    split
    · exact ⟨Nat.zero_le _, by simp, by simp⟩
    · next h =>
      push_neg at h
      exact ⟨h.2.2, rfl, rfl⟩
  | nospec len =>
    simp only [applyAdvance, aws_byte_cursor_advance_nospec]
    split
    · next h =>
      have hle : aws_nospec_index len (c.len + 1) ≤ len :=
        nospec_le_len h.2.1 h.2.2
      exact ⟨Nat.le_trans hle h.1, rfl, rfl⟩
    · exact ⟨Nat.zero_le _, by simp, by simp⟩

/-- The remaining length of a cursor never increases over a sequence of
advancement calls. -/
lemma runCursor_len_le (ops : List AdvanceOp) (c : aws_byte_cursor) :
    (runCursor c ops).len ≤ c.len := by
  induction ops generalizing c with
  | nil => exact Nat.le_refl _
  | cons op ops ih =>
    have hstep := applyAdvance_step c op
    calc (runCursor (applyAdvance c op).2 ops).len
        ≤ (applyAdvance c op).2.len := ih _
      _ ≤ c.len := by omega

/-! ### Claim theorems: byte cursor -/

/-- C1: for a cursor with remaining length `R` at pointer `p` and a
requested length `len`: if `len` exceeds `R`, or either of `len` and `R`
exceeds `SIZE_MAX / 2`, `aws_byte_cursor_advance` returns the empty cursor
(null pointer, zero length) and leaves the original `(p, R)` unchanged;
otherwise it returns `(p, len)` and mutates the original cursor to
`(p + len, R - len)`. -/
theorem C1_advance_contract (c : aws_byte_cursor) (len : Nat) :
    (len > c.len ∨ len > SIZE_MAX / 2 ∨ c.len > SIZE_MAX / 2 →
      aws_byte_cursor_advance c len = (⟨0, 0⟩, c)) ∧
    (len ≤ c.len → len ≤ SIZE_MAX / 2 → c.len ≤ SIZE_MAX / 2 →
      aws_byte_cursor_advance c len =
        (⟨c.ptr, len⟩, ⟨c.ptr + len, c.len - len⟩)) := by
  have h2 : SIZE_MAX / 2 = 9223372036854775807 := by decide
  unfold aws_byte_cursor_advance
  rw [size_half_eq, h2]
  constructor
  · intro h
    rw [if_pos (by omega)]
  · intro ha hb hc
    rw [if_neg (by omega)]

/-- Witness for C1: both branches at concrete inputs. -/
theorem C1_advance_contract_witness :
    aws_byte_cursor_advance ⟨100, 11⟩ 5 = (⟨100, 5⟩, ⟨105, 6⟩) ∧
    aws_byte_cursor_advance ⟨100, 11⟩ 12 = (⟨0, 0⟩, ⟨100, 11⟩) :=
  ⟨(C1_advance_contract ⟨100, 11⟩ 5).2 (by decide) (by decide) (by decide),
   (C1_advance_contract ⟨100, 11⟩ 12).1 (Or.inl (by decide))⟩

/-- C2 (divergence evaluation): at a cursor whose remaining length is
exactly `SIZE_MAX >> 1 = 2 ^ 63 - 1` and `len = 1`, `aws_byte_cursor_advance`
consumes one byte, while `aws_byte_cursor_advance_nospec` takes its accepted
branch but calls `aws_nospec_index` with `bound = cursor.len + 1 = 2 ^ 63`,
which exceeds `SIZE_MAX / 2`, so the length is clamped to `0`: it returns a
zero-length cursor at the current pointer and leaves the cursor state
unchanged.  The two functions thus do not behave identically, contradicting
the documented contract of `aws_byte_cursor_advance_nospec`. -/
theorem C2_advance_nospec_divergence :
    aws_byte_cursor_advance ⟨100, 2 ^ 63 - 1⟩ 1 =
      (⟨100, 1⟩, ⟨101, 2 ^ 63 - 2⟩) ∧
    aws_byte_cursor_advance_nospec ⟨100, 2 ^ 63 - 1⟩ 1 =
      (⟨100, 0⟩, ⟨100, 2 ^ 63 - 1⟩) ∧
    aws_byte_cursor_advance ⟨100, 2 ^ 63 - 1⟩ 1 ≠
      aws_byte_cursor_advance_nospec ⟨100, 2 ^ 63 - 1⟩ 1 :=
  ⟨by decide, by decide, by decide⟩

/-- C3: on `size_t` inputs, `aws_nospec_index i b` returns `i` whenever
`i < b` and `b ≤ SIZE_MAX / 2`, and returns `0` whenever `i ≥ b`, or
`i > SIZE_MAX / 2`, or `b > SIZE_MAX / 2`. -/
theorem C3_nospec_index_contract (i b : Nat) (hi : i ≤ SIZE_MAX)
    (hb : b ≤ SIZE_MAX) :
    (i < b → b ≤ SIZE_MAX / 2 → aws_nospec_index i b = i) ∧
    (b ≤ i ∨ i > SIZE_MAX / 2 ∨ b > SIZE_MAX / 2 →
      aws_nospec_index i b = 0) := by
  have h2 : SIZE_MAX / 2 = 9223372036854775807 := by decide
  have h63 : (2 : Nat) ^ 63 = 9223372036854775808 := by decide
  rw [size_max_eq] at hi hb
  have heq := aws_nospec_index_eq i b (by rw [size_pow_eq]; omega)
    (by rw [size_pow_eq]; omega)
  rw [h63] at heq
  rw [h2, heq]
  constructor
  · intro hib hbh
    rw [if_pos ⟨hib, by omega⟩]
  · intro h
    rw [if_neg (by omega)]

/-- Witness for C3: the boundary scenario `bound = 10`, `index = 10`
returns `0`, and an in-range input returns the index. -/
theorem C3_nospec_index_contract_witness :
    aws_nospec_index 10 10 = 0 ∧ aws_nospec_index 3 10 = 3 :=
  ⟨(C3_nospec_index_contract 10 10 (by decide) (by decide)).2
      (Or.inl (Nat.le_refl 10)),
   (C3_nospec_index_contract 3 10 (by decide) (by decide)).1
      (by decide) (by decide)⟩

/-- C4: over any sequence of `advance` / `advance_nospec` calls the
remaining length never increases; each single call either fails returning
the empty cursor with the state unchanged, or moves the pointer forward by
exactly the number of bytes consumed (the returned length) while decreasing
the remaining length by the same amount; consequently
`pointer + remaining length` never increases; and from a state with
remaining length `0`, either advance with `len > 0` fails with no state
change. -/
theorem C4_cursor_state_machine (c : aws_byte_cursor) (ops : List AdvanceOp)
    (op : AdvanceOp) (len : Nat) :
    (runCursor c ops).len ≤ c.len ∧
    (applyAdvance c op = (⟨0, 0⟩, c) ∨
      ((applyAdvance c op).2.ptr = c.ptr + (applyAdvance c op).1.len ∧
        (applyAdvance c op).2.len = c.len - (applyAdvance c op).1.len ∧
        (applyAdvance c op).1.len ≤ c.len)) ∧
    (applyAdvance c op).2.ptr + (applyAdvance c op).2.len ≤ c.ptr + c.len ∧
    (c.len = 0 → 0 < len →
      aws_byte_cursor_advance c len = (⟨0, 0⟩, c) ∧
      aws_byte_cursor_advance_nospec c len = (⟨0, 0⟩, c)) := by
  have hstep := applyAdvance_step c op
  refine ⟨runCursor_len_le ops c, Or.inr ⟨hstep.2.1, hstep.2.2, hstep.1⟩,
    by omega, ?_⟩
  intro hzero hpos
  constructor
  · unfold aws_byte_cursor_advance
    rw [if_pos (Or.inr (Or.inr (by omega)))]
  · unfold aws_byte_cursor_advance_nospec
    rw [if_neg (by rw [hzero]; intro hcon; omega)]

/-- Witness for C4: concrete instance including the terminal-state
clause. -/
theorem C4_cursor_state_machine_witness :
    aws_byte_cursor_advance ⟨7, 0⟩ 1 = (⟨0, 0⟩, ⟨7, 0⟩) ∧
    aws_byte_cursor_advance_nospec ⟨7, 0⟩ 1 = (⟨0, 0⟩, ⟨7, 0⟩) :=
  (C4_cursor_state_machine ⟨7, 0⟩ [] (AdvanceOp.plain 1) 1).2.2.2 rfl
    (by decide)

/-- C10: on `size_t` inputs the value returned by `aws_nospec_index` is
exactly `0` or exactly `index`, and a nonzero result implies
`index < bound` with both `index` and `bound` at most `SIZE_MAX / 2`. -/
theorem C10_nospec_index_zero_or_id (i b : Nat) (hi : i ≤ SIZE_MAX)
    (hb : b ≤ SIZE_MAX) :
    (aws_nospec_index i b = 0 ∨ aws_nospec_index i b = i) ∧
    (aws_nospec_index i b ≠ 0 →
      i < b ∧ i ≤ SIZE_MAX / 2 ∧ b ≤ SIZE_MAX / 2) := by
  have h2 : SIZE_MAX / 2 = 9223372036854775807 := by decide
  have h63 : (2 : Nat) ^ 63 = 9223372036854775808 := by decide
  rw [size_max_eq] at hi hb
  have heq := aws_nospec_index_eq i b (by rw [size_pow_eq]; omega)
    (by rw [size_pow_eq]; omega)
  rw [h63] at heq
  rw [h2, heq]
  by_cases hin : i < b ∧ b < 9223372036854775808
  · rw [if_pos hin]
    exact ⟨Or.inr rfl, fun _ => ⟨hin.1, by omega, by omega⟩⟩
  · rw [if_neg hin]
    exact ⟨Or.inl rfl, fun hcon => absurd rfl hcon⟩

/-- Witness for C10 at a concrete in-range input. -/
theorem C10_nospec_index_zero_or_id_witness :
    aws_nospec_index 3 10 = 0 ∨ aws_nospec_index 3 10 = 3 :=
  (C10_nospec_index_zero_or_id 3 10 (by decide) (by decide)).1

/-! ### Claim theorems: atomics -/

/-- C5: for any valid ordering pair, `compare_exchange` on a cell holding
`c` with `*expected = e` and desired value `d`: if `e = c` it succeeds,
setting the cell to `d`, returning `true`, and leaving `*expected`
unchanged; if `e ≠ c` it fails, returning `false`, leaving the cell
unchanged, and overwriting `*expected` with the cell's actual value `c` —
for both the integer and the pointer variant. -/
theorem C5_compare_exchange_contract (o1 o2 : Int) (c e d : Nat)
    (h1 : ValidOrder o1) (h2 : ValidOrder o2) :
    (e = c →
      aws_atomic_compare_exchange_int_explicit c e d o1 o2 =
        some (true, d, e) ∧
      aws_atomic_compare_exchange_ptr_explicit c e d o1 o2 =
        some (true, d, e)) ∧
    (e ≠ c →
      aws_atomic_compare_exchange_int_explicit c e d o1 o2 =
        some (false, c, c) ∧
      aws_atomic_compare_exchange_ptr_explicit c e d o1 o2 =
        some (false, c, c)) := by
  obtain ⟨t1, ht1⟩ := xlate_isSome h1
  obtain ⟨t2, ht2⟩ := xlate_isSome h2
  unfold aws_atomic_compare_exchange_int_explicit
    aws_atomic_compare_exchange_ptr_explicit
  rw [ht1, ht2]
  constructor
  · intro he
    subst he
    simp [gnu_atomic_compare_exchange_n]
  · intro he
    simp [gnu_atomic_compare_exchange_n, he]

/-- Witness for C5: success and failure at concrete values. -/
theorem C5_compare_exchange_contract_witness :
    aws_atomic_compare_exchange_int_explicit 5 5 9 aws_memory_order_seq_cst
      aws_memory_order_relaxed = some (true, 9, 5) ∧
    aws_atomic_compare_exchange_ptr_explicit 5 6 9 aws_memory_order_seq_cst
      aws_memory_order_relaxed = some (false, 5, 5) :=
  ⟨((C5_compare_exchange_contract aws_memory_order_seq_cst
      aws_memory_order_relaxed 5 5 9 (by decide) (by decide)).1 rfl).1,
   ((C5_compare_exchange_contract aws_memory_order_seq_cst
      aws_memory_order_relaxed 5 6 9 (by decide) (by decide)).2
      (by decide)).2⟩

/-- C6: for every valid ordering and value (integer or pointer), a load
immediately after `init(v)` or `store(v, o)` returns `v`; and
`exchange(v2, o)` on a cell holding `v` returns `v`, a subsequent load
returning `v2`. -/
theorem C6_load_after_write (o o2 : Int) (v v2 s : Nat)
    (ho : ValidOrder o) (ho2 : ValidOrder o2) :
    aws_atomic_load_int_explicit (aws_atomic_init_int v) o = some v ∧
    aws_atomic_load_ptr_explicit (aws_atomic_init_ptr v) o = some v ∧
    aws_atomic_store_int_explicit s v o = some v ∧
    aws_atomic_store_ptr_explicit s v o = some v ∧
    aws_atomic_load_int_explicit v o2 = some v ∧
    aws_atomic_exchange_int_explicit v v2 o = some (v, v2) ∧
    aws_atomic_exchange_ptr_explicit v v2 o = some (v, v2) ∧
    aws_atomic_load_int_explicit v2 o2 = some v2 := by
  obtain ⟨t, ht⟩ := xlate_isSome ho
  obtain ⟨t2, ht2⟩ := xlate_isSome ho2
  refine ⟨?_, ?_, ?_, ?_, ?_, ?_, ?_, ?_⟩ <;>
    simp [aws_atomic_load_int_explicit, aws_atomic_load_ptr_explicit,
      aws_atomic_store_int_explicit, aws_atomic_store_ptr_explicit,
      aws_atomic_exchange_int_explicit, aws_atomic_exchange_ptr_explicit,
      aws_atomic_init_int, aws_atomic_init_ptr, gnu_atomic_load_n,
      gnu_atomic_store_n, gnu_atomic_exchange_n, ht, ht2]

/-- Witness for C6 at concrete values and orderings. -/
theorem C6_load_after_write_witness :
    aws_atomic_load_int_explicit (aws_atomic_init_int 42)
      aws_memory_order_acquire = some 42 ∧
    aws_atomic_exchange_int_explicit 42 7 aws_memory_order_seq_cst =
      some (42, 7) :=
  ⟨(C6_load_after_write aws_memory_order_acquire aws_memory_order_relaxed
      42 7 0 (by decide) (by decide)).1,
   (C6_load_after_write aws_memory_order_seq_cst aws_memory_order_relaxed
      42 7 0 (by decide) (by decide)).2.2.2.2.2.1⟩

/-- C7: for every valid ordering and `size_t` values `old`, `n`:
`fetch_add` returns `old` with the cell becoming `(old + n) mod 2 ^ 64`
(as a subsequent load observes); `fetch_sub` returns `old` with the cell
becoming `(old - n) mod 2 ^ 64` in the signed-integer sense; and `fetch_or` /
`fetch_and` / `fetch_xor` return `old` with the cell becoming `old ||| n`,
`old &&& n`, `old ^^^ n`. -/
theorem C7_fetch_ops (o o2 : Int) (old n : Nat) (ho : ValidOrder o)
    (ho2 : ValidOrder o2) (hold : old ≤ SIZE_MAX) (hn : n ≤ SIZE_MAX) :
    aws_atomic_fetch_add_explicit old n o =
      some (old, (old + n) % 2 ^ SIZE_BITS) ∧
    aws_atomic_load_int_explicit ((old + n) % 2 ^ SIZE_BITS) o2 =
      some ((old + n) % 2 ^ SIZE_BITS) ∧
    aws_atomic_fetch_sub_explicit old n o =
      some (old, (((old : Int) - (n : Int)) % 2 ^ SIZE_BITS).toNat) ∧
    aws_atomic_fetch_or_explicit old n o = some (old, old ||| n) ∧
    aws_atomic_fetch_and_explicit old n o = some (old, old &&& n) ∧
    aws_atomic_fetch_xor_explicit old n o = some (old, old ^^^ n) := by
  obtain ⟨t, ht⟩ := xlate_isSome ho
  obtain ⟨t2, ht2⟩ := xlate_isSome ho2
  rw [size_max_eq] at hold hn
  have holdM : old < 2 ^ SIZE_BITS := by rw [size_pow_eq]; omega
  have hnM : n < 2 ^ SIZE_BITS := by rw [size_pow_eq]; omega
  have hsub : (2 ^ SIZE_BITS + old - n % 2 ^ SIZE_BITS) % 2 ^ SIZE_BITS =
      (((old : Int) - (n : Int)) % 2 ^ SIZE_BITS).toNat := by
    have hZ : (2 : Int) ^ SIZE_BITS = 18446744073709551616 := by decide
    rw [size_pow_eq, hZ]
    omega
  have hor : (old ||| n) % 2 ^ SIZE_BITS = old ||| n :=
    Nat.mod_eq_of_lt (Nat.or_lt_two_pow holdM hnM)
  have hand : (old &&& n) % 2 ^ SIZE_BITS = old &&& n :=
    Nat.mod_eq_of_lt (Nat.lt_of_le_of_lt Nat.and_le_left holdM)
  have hxor : (old ^^^ n) % 2 ^ SIZE_BITS = old ^^^ n :=
    Nat.mod_eq_of_lt (Nat.xor_lt_two_pow holdM hnM)
  refine ⟨?_, ?_, ?_, ?_, ?_, ?_⟩ <;>
    simp [aws_atomic_fetch_add_explicit, aws_atomic_load_int_explicit,
      aws_atomic_fetch_sub_explicit, aws_atomic_fetch_or_explicit,
      aws_atomic_fetch_and_explicit, aws_atomic_fetch_xor_explicit,
      gnu_atomic_fetch_add, gnu_atomic_load_n, gnu_atomic_fetch_sub,
      gnu_atomic_fetch_or, gnu_atomic_fetch_and, gnu_atomic_fetch_xor,
      ht, ht2, hsub, hor, hand, hxor]

/-- Witness for C7 at concrete values, exercising the modular wrap of
`fetch_sub`. -/
theorem C7_fetch_ops_witness :
    aws_atomic_fetch_add_explicit 6 5 aws_memory_order_seq_cst =
      some (6, 11) ∧
    aws_atomic_fetch_sub_explicit 3 5 aws_memory_order_seq_cst =
      some (3, 2 ^ 64 - 2) :=
  ⟨by
    have h := (C7_fetch_ops aws_memory_order_seq_cst aws_memory_order_relaxed
      6 5 (by decide) (by decide) (by decide) (by decide)).1
    rw [h]
    decide,
   by
    have h := (C7_fetch_ops aws_memory_order_seq_cst aws_memory_order_relaxed
      3 5 (by decide) (by decide) (by decide) (by decide)).2.2.1
    rw [h]
    decide⟩

/-- C8: the order translator maps each of the five ordering values to the
corresponding intrinsic token and returns normally, and aborts (modelled by
`none`) on every argument outside the five-value enumeration. -/
theorem C8_xlate_total (o : Int) :
    aws_atomic_priv_xlate_order aws_memory_order_relaxed =
      some ATOMIC_RELAXED ∧
    aws_atomic_priv_xlate_order aws_memory_order_acquire =
      some ATOMIC_ACQUIRE ∧
    aws_atomic_priv_xlate_order aws_memory_order_release =
      some ATOMIC_RELEASE ∧
    aws_atomic_priv_xlate_order aws_memory_order_acq_rel =
      some ATOMIC_ACQ_REL ∧
    aws_atomic_priv_xlate_order aws_memory_order_seq_cst =
      some ATOMIC_SEQ_CST ∧
    (¬ ValidOrder o → aws_atomic_priv_xlate_order o = none) := by
  refine ⟨by decide, by decide, by decide, by decide, by decide, ?_⟩
  intro h
  unfold ValidOrder at h
  push_neg at h
  obtain ⟨h1, h2, h3, h4, h5⟩ := h
  unfold aws_atomic_priv_xlate_order
  rw [if_neg h1, if_neg h2, if_neg h3, if_neg h4, if_neg h5]

/-- Witness for C8: the unused `consume`-slot value `1` aborts, and the
mapped values translate. -/
theorem C8_xlate_total_witness :
    aws_atomic_priv_xlate_order 1 = none ∧
    aws_atomic_priv_xlate_order aws_memory_order_relaxed =
      some ATOMIC_RELAXED :=
  ⟨(C8_xlate_total 1).2.2.2.2.2 (by decide), (C8_xlate_total 1).1⟩

end Aws
